import Mathlib

/-
Verification of the dataset-indexing module `utils/UW_dataset.py`
(class `UWDataset`: constructor, `__len__`, `__getitem__`).

The embedding models:
  * the filesystem as a list of file-path strings,
  * the spreadsheet reader (`pd.read_csv`, an external collaborator) as a
    function from a file path to a list of parsed rows,
  * `random.shuffle` as a caller-supplied function on lists (theorems add
    the permutation facts that an in-place shuffle guarantees),
  * the image decoding / transform pipeline (external collaborators) as
    the identity on file paths: `__getitem__` is modelled up to the pure
    data it selects (which paths, which label index), since decoding and
    augmentation are outside this module.
Python exceptions become explicit error values: the constructor's
`print+exit` on a bad spreadsheet count is `BuildError.annotFileError`;
the crashes on an empty result (the `ValueError` from `max([])` at line 67
and the `IndexError` from `self.annotations[0]` in the summary print at
line 123) are both `BuildError.emptySplitError`, following the spec's
error taxonomy; `list.index` failure is `GetError.labelNotFoundError`;
list indexing failure is `GetError.indexError`.
-/

/-- Boolean lexicographic (code-point) order on character lists, the order
Python's `sorted` uses on strings; defined structurally so that the kernel
can evaluate it. -/
def lexLe : List Char → List Char → Bool
  | [], _ => true
  | _ :: _, [] => false
  | a :: as, b :: bs =>
    if a.toNat < b.toNat then true
    else if b.toNat < a.toNat then false
    else lexLe as bs

/-- Code-point lexicographic order on strings (Python `str` comparison). -/
def strLe (a b : String) : Prop := lexLe a.data b.data = true

instance : DecidableRel strLe := fun a b => by
  unfold strLe; infer_instance

/-- Does the path `s` start with the string `p`?  (`glob(p + "*")` matching,
apart from the separator restriction handled separately.) -/
def strStartsWith (s p : String) : Bool := p.data.isPrefixOf s.data

/-- Does the path `s` end with the string `p`?  (matching the `*.ods`
spreadsheet pattern suffix.) -/
def strEndsWith (s p : String) : Bool := p.data.isSuffixOf s.data

/-- One parsed spreadsheet row (a row of the pandas dataframe read at
line 57).  `ann_label` is the row's `annotation` column (the Python
identifier cannot be used here); `cols` gives the row's value in each
named class column, so `row[list_classes].to_list()` is
`list_classes.map cols`. -/
structure Row where
  ann_label : String
  id_rov : Nat
  img_id : Nat
  cols : String → Int

/-- One entry of the per-label dictionary `annot` built at lines 58-63:
the dict `{'image_root': ..., 'one-hot': ...}`. -/
structure Entry where
  image_root : String
  one_hot : List Int
  deriving DecidableEq

/-- The `image_path` field of a final index entry: a single path string in
train mode, a list of paths in eval mode (the Python code stores either a
`str` or a `list` under the same key, cf. the `type(...) == type([])` test
at line 123). -/
inductive ImagePath where
  | single : String → ImagePath
  | multi : List String → ImagePath
  deriving DecidableEq

/-- One element of `self.annotations`: the final index entry
`{'image_path': ..., 'label': ..., 'one-hot': ...}`. -/
structure DatasetRecord where
  image_path : ImagePath
  label : String
  one_hot : List Int
  deriving DecidableEq

/-- Errors surfaced during `__init__` (see the header comment for the
mapping from the Python behaviour). -/
inductive BuildError where
  | annotFileError : String → BuildError
  | emptySplitError : BuildError
  deriving DecidableEq

/-- Errors surfaced during `__getitem__`.  `typeError` models the Python
`TypeError` that `cv2.imread` raises when handed a record whose
`image_path` variant does not match the dataset's mode (unreachable for
constructed datasets). -/
inductive GetError where
  | indexError : GetError
  | labelNotFoundError : GetError
  | typeError : GetError
  deriving DecidableEq

/-- The per-label grouping `annot` (a Python dict, which preserves key
insertion order; modelled as an association list). -/
abbrev Groups := List (String × List Entry)

/-- Append `e` to the group keyed `label`, creating the group at the end
if the key is new — exactly the dict update at lines 60-62. -/
def addToGroup (groups : Groups) (label : String) (e : Entry) : Groups :=
  match groups with
  | [] => [(label, [e])]
  | (l, es) :: rest =>
    if l = label then (l, es ++ [e]) :: rest
    else (l, es) :: addToGroup rest label e

/-- Zero-padded decimal rendering of a natural number, Python's
`f"{n:0wd}"`. -/
def zeroPad (w n : Nat) : String :=
  ⟨List.replicate (w - (Nat.repr n).data.length) '0' ++ (Nat.repr n).data⟩

/-- The files matched by `glob(join(split, "*.ods"))` (line 43): files of
the split directory (no deeper path separator) whose name ends in
`.ods`. -/
def globOds (fs : List String) (split : String) : List String :=
  fs.filter (fun p =>
    strStartsWith p (split ++ "/")
      && !((p.data.drop (split.data.length + 1)).contains '/')
      && strEndsWith p ".ods")

/-- The files matched by `glob(image_root + "*")` (lines 76, 83, 110):
files whose path starts with `root` with no further path separator. -/
def globStar (fs : List String) (root : String) : List String :=
  fs.filter (fun p =>
    strStartsWith p root && !((p.data.drop root.data.length).contains '/'))

/-- The value `sorted(glob(image_root + "*"))`: matched files in
code-point lexicographic order. -/
def resolveFiles (fs : List String) (root : String) : List String :=
  List.insertionSort strLe (globStar fs root)

/-- The entry built from one spreadsheet row at lines 62-63:
`image_root = join(split, f"{id_rov:02d}_{img_id:04d}")` and
`one-hot = row[list_classes].to_list()`. -/
def rowEntry (split : String) (classes : List String) (r : Row) : Entry :=
  { image_root := split ++ "/" ++ zeroPad 2 r.id_rov ++ "_" ++ zeroPad 4 r.img_id,
    one_hot := classes.map r.cols }

/-- Process one spreadsheet row (lines 58-63). -/
def addRow (split : String) (classes : List String) (g : Groups) (r : Row) : Groups :=
  addToGroup g r.ann_label (rowEntry split classes r)

/-- The split-scanning loop of lines 41-63: for each split resolve exactly
one spreadsheet (else abort, lines 46-53), parse it, and fold its rows
into the grouping. -/
def buildGroups (fs : List String) (readCsv : String → List Row)
    (classes : List String) : List String → Groups → Except BuildError Groups
  | [], groups => .ok groups
  | split :: rest, groups =>
    if (globOds fs split).length = 1 then
      buildGroups fs readCsv classes rest
        ((readCsv ((globOds fs split).headD "")).foldl (addRow split classes) groups)
    else .error (.annotFileError split)

/-- The value `max([len(annot_list) for annot_list in annot.values()])`
(line 67); `none` when the grouping is empty (Python: `ValueError`). -/
def maxCount? (groups : Groups) : Option Nat :=
  match groups.map (fun g => g.2.length) with
  | [] => none
  | x :: xs => some (xs.foldl max x)

/-- The sequence of entries one class group emits in train mode, before
file expansion (lines 70-74 and 82): `rep = max_repeats // len` full
passes over the shuffled group followed by its first `rem = max_repeats %
len` entries. -/
def emittedEntries (shuffle : String → List Entry → List Entry) (M : Nat)
    (label : String) (es : List Entry) : List Entry :=
  List.flatten (List.replicate (M / (shuffle label es).length) (shuffle label es))
    ++ (shuffle label es).take (M % (shuffle label es).length)

/-- File expansion of one emitted entry (lines 76-80 / 83-87): one
training record per file resolved from the entry's image root. -/
def emitEntry (fs : List String) (label : String) (e : Entry) : List DatasetRecord :=
  (resolveFiles fs e.image_root).map (fun p =>
    { image_path := ImagePath.single p, label := label, one_hot := e.one_hot })

/-- All training records one class group contributes (lines 69-87). -/
def trainGroupAnns (fs : List String) (shuffle : String → List Entry → List Entry)
    (M : Nat) (label : String) (es : List Entry) : List DatasetRecord :=
  (emittedEntries shuffle M label es).flatMap (emitEntry fs label)

/-- The full training index (lines 65-87). -/
def trainAnns (fs : List String) (shuffle : String → List Entry → List Entry)
    (M : Nat) (groups : Groups) : List DatasetRecord :=
  groups.flatMap (fun g => trainGroupAnns fs shuffle M g.1 g.2)

/-- All evaluation records one class group contributes (lines 108-112):
one record per entry, no shuffling, no repetition, the full sorted file
list stored as one group. -/
def evalGroupAnns (fs : List String) (label : String) (es : List Entry) :
    List DatasetRecord :=
  es.map (fun e =>
    { image_path := ImagePath.multi (resolveFiles fs e.image_root), label := label,
      one_hot := e.one_hot })

/-- The full evaluation index (lines 107-112). -/
def evalAnns (fs : List String) (groups : Groups) : List DatasetRecord :=
  groups.flatMap (fun g => evalGroupAnns fs g.1 g.2)

/-- The index built from the grouping in the requested mode.  In train
mode an empty grouping yields `[]` (the code would already have crashed
at `max([])`; the caller `build` turns `[]` into the error). -/
def annsOf (fs : List String) (shuffle : String → List Entry → List Entry)
    (train : Bool) (groups : Groups) : List DatasetRecord :=
  if train then
    match maxCount? groups with
    | none => []
    | some M => trainAnns fs shuffle M groups
  else evalAnns fs groups

/-- The whole `__init__` (lines 34-125): scan the splits, build the
grouping, emit the index for the mode, and fail rather than produce an
empty dataset (cf. the header comment on error mapping). -/
def build (fs : List String) (readCsv : String → List Row)
    (shuffle : String → List Entry → List Entry) (split_list : List String)
    (list_classes : List String) (train : Bool) :
    Except BuildError (List DatasetRecord) :=
  match buildGroups fs readCsv list_classes split_list [] with
  | .error e => .error e
  | .ok groups =>
    let anns := annsOf fs shuffle train groups
    if anns.isEmpty then .error .emptySplitError else .ok anns

/-- The state a constructed `UWDataset` object carries into `__len__` and
`__getitem__` (`self.annotations`, `self.train`, `self.list_classes`; the
`self.transforms` pipeline is an external collaborator). -/
structure UWDataset where
  anns : List DatasetRecord
  train : Bool
  list_classes : List String
  deriving DecidableEq

/-- The method `__len__` (lines 128-131). -/
def UWDataset.len (d : UWDataset) : Nat := d.anns.length

/-- Python list indexing `xs[i]`: non-negative indices from the front,
negative indices from the back, `none` (an `IndexError`) outside
`-len ≤ i < len`. -/
def pyIndex {α : Type} (l : List α) (i : Int) : Option α :=
  if 0 ≤ i then l.get? i.toNat
  else if (-i).toNat ≤ l.length then l.get? (l.length - (-i).toNat)
  else none

/-- Python `list.index` (first position of `lab` in `classes`,
lines 143/155); `none` models the `ValueError`. -/
def listIdx (classes : List String) (lab : String) : Option Nat :=
  match classes with
  | [] => none
  | c :: cs => if c = lab then some 0 else (listIdx cs lab).map (· + 1)

/-- The pure data a `__getitem__` result selects: the decoded image is
determined by the path(s) (decoding and the transform pipeline are
external collaborators), the returned label tensor by the class index. -/
inductive GetResult where
  | trainItem : String → Nat → GetResult
  | evalItem : List String → Nat → GetResult
  deriving DecidableEq

/-- The method `__getitem__` (lines 133-157), modelled up to the external
image decode/transform collaborators (assumed to succeed on the stored
paths). -/
def getItem (d : UWDataset) (index : Int) : Except GetError GetResult :=
  if d.train then
    match pyIndex d.anns index with
    | none => .error .indexError
    | some a =>
      match a.image_path with
      | .single p =>
        match listIdx d.list_classes a.label with
        | none => .error .labelNotFoundError
        | some k => .ok (.trainItem p k)
      | .multi _ => .error .typeError
  else
    match pyIndex d.anns index with
    | none => .error .indexError
    | some a =>
      match a.image_path with
      | .multi ps =>
        match listIdx d.list_classes a.label with
        | none => .error .labelNotFoundError
        | some k => .ok (.evalItem ps k)
      | .single _ => .error .typeError

/-- An observation of the dataset object: a `len()` call or a
`dataset[i]` access. -/
inductive Op where
  | lengthQuery : Op
  | getQuery : Int → Op

/-- Run one observation: the state the method leaves behind paired with
what it returns (neither method assigns to `self`). -/
def runOp (d : UWDataset) (op : Op) : UWDataset × (Nat ⊕ Except GetError GetResult) :=
  match op with
  | .lengthQuery => (d, Sum.inl d.len)
  | .getQuery i => (d, Sum.inr (getItem d i))

/-- Run a sequence of observations, threading the object state. -/
def runOps (d : UWDataset) : List Op → UWDataset
  | [] => d
  | op :: ops => runOps (runOp d op).1 ops

/-- Index of the first maximal element of a one-hot sequence (the spec's
argmax decode; the decode itself is not part of the module's code). -/
def argmaxAux : List Int → Nat → Int → Nat → Nat
  | [], _, _, best => best
  | x :: xs, i, mx, best =>
    if mx < x then argmaxAux xs (i + 1) x i else argmaxAux xs (i + 1) mx best

/-- Argmax over a one-hot sequence (0 on the empty sequence). -/
def argmax : List Int → Nat
  | [] => 0
  | x :: xs => argmaxAux xs 1 x 0

/-- Decode a one-hot sequence back to a label by argmax over the
configured class order. -/
def decodeLabel (classes : List String) (oh : List Int) : Option String :=
  classes.get? (argmax oh)

/-
Concrete scenarios used by witnesses and the counterexample.
-/

/-- A filesystem with one split `s` holding one spreadsheet and one image. -/
def fsW : List String := ["s/a.ods", "s/01_0001.png"]

/-- A well-formed row: label `A`, one-hot `1` exactly in column `A`. -/
def rowW : Row :=
  { ann_label := "A", id_rov := 1, img_id := 1, cols := fun c => if c = "A" then 1 else 0 }

/-- A reader returning the single well-formed row for any spreadsheet. -/
def csvW : String → List Row := fun _ => [rowW]

/-- A reader returning no rows at all. -/
def csvE : String → List Row := fun _ => []

/-- The identity shuffle (one legal outcome of `random.shuffle`). -/
def shW : String → List Entry → List Entry := fun _ es => es

/-- The evaluation record the well-formed scenario constructs. -/
def recW : DatasetRecord :=
  { image_path := ImagePath.multi ["s/01_0001.png"], label := "A", one_hot := [1] }

/-- A filesystem with one split `t` holding one spreadsheet and one image. -/
def fsC : List String := ["t/b.ods", "t/02_0003.png"]

/-- A malformed row: label `A` but one-hot `1` in column `B`. -/
def rowC : Row :=
  { ann_label := "A", id_rov := 2, img_id := 3, cols := fun c => if c = "B" then 1 else 0 }

/-- A reader returning the single malformed row for any spreadsheet. -/
def csvC : String → List Row := fun _ => [rowC]

/-- The evaluation record the malformed scenario constructs. -/
def recC : DatasetRecord :=
  { image_path := ImagePath.multi ["t/02_0003.png"], label := "A", one_hot := [0, 1] }

/-- Entries used to instantiate the oversampling count theorem. -/
def eA1 : Entry := { image_root := "u/01_0001", one_hot := [1, 0] }

/-- Second entry of class `A` in the oversampling scenario. -/
def eA2 : Entry := { image_root := "u/01_0002", one_hot := [1, 0] }

/-- First entry of class `B` in the oversampling scenario. -/
def eB1 : Entry := { image_root := "u/01_0003", one_hot := [0, 1] }

/-- Second entry of class `B` in the oversampling scenario. -/
def eB2 : Entry := { image_root := "u/01_0004", one_hot := [0, 1] }

/-- Third entry of class `B` in the oversampling scenario. -/
def eB3 : Entry := { image_root := "u/01_0005", one_hot := [0, 1] }

/-- A grouping with class `A` of size 2 and class `B` of size 3 (the
spec's worked example, `max_count = 3`). -/
def gW : Groups := [("A", [eA1, eA2]), ("B", [eB1, eB2, eB3])]

/-- A dataset object used to exercise the retrieval contract. -/
def dW8 : UWDataset :=
  { anns := [{ image_path := ImagePath.single "p", label := "A", one_hot := [1] }],
    train := true, list_classes := ["A"] }

/-- A train-mode dataset whose sole record's label is missing from the
configured class order. -/
def dC7 : UWDataset :=
  { anns := [{ image_path := ImagePath.single "p", label := "Z", one_hot := [1] }],
    train := true, list_classes := ["A"] }

/-- The total number of parsed annotation rows across the splits (each
split contributing the rows of its unique spreadsheet, read as the code
reads it at line 57). -/
def totalRows (fs : List String) (readCsv : String → List Row)
    (splits : List String) : Nat :=
  (splits.map (fun s => (readCsv ((globOds fs s).headD "")).length)).sum

/-- Total number of entries held by a grouping. -/
def sizeSum (groups : Groups) : Nat :=
  (groups.map (fun g => g.2.length)).sum

/-- Invariant on groupings: `P` holds of every (label, entry) pair. -/
def GroupsInv (P : String → Entry → Prop) (groups : Groups) : Prop :=
  ∀ l es, (l, es) ∈ groups → ∀ e ∈ es, P l e

/-
Helper lemmas.
-/

/-- Totality of the code-point order on character lists. -/
theorem lexLe_total : ∀ as bs : List Char, lexLe as bs = true ∨ lexLe bs as = true
  | [], _ => Or.inl rfl
  | _ :: _, [] => Or.inr rfl
  | a :: as, b :: bs => by
    by_cases h1 : a.toNat < b.toNat
    · exact Or.inl (by simp [lexLe, h1])
    · by_cases h2 : b.toNat < a.toNat
      · exact Or.inr (by simp [lexLe, h2])
      · rcases lexLe_total as bs with h | h
        · exact Or.inl (by simp [lexLe, h1, h2, h])
        · exact Or.inr (by simp [lexLe, h1, h2, h])

/-- Transitivity of the code-point order on character lists. -/
theorem lexLe_trans : ∀ as bs cs : List Char,
    lexLe as bs = true → lexLe bs cs = true → lexLe as cs = true
  | [], _, _, _, _ => rfl
  | _ :: _, [], _, h1, _ => by simp [lexLe] at h1
  | _ :: _, _ :: _, [], _, h2 => by simp [lexLe] at h2
  | a :: as, b :: bs, c :: cs, h1, h2 => by
    have h1' : a.toNat < b.toNat ∨ (a.toNat = b.toNat ∧ lexLe as bs = true) := by
      by_cases hab : a.toNat < b.toNat
      · exact Or.inl hab
      · by_cases hba : b.toNat < a.toNat
        · simp [lexLe, hab, hba] at h1
        · exact Or.inr ⟨by omega, by simpa [lexLe, hab, hba] using h1⟩
    have h2' : b.toNat < c.toNat ∨ (b.toNat = c.toNat ∧ lexLe bs cs = true) := by
      by_cases hbc : b.toNat < c.toNat
      · exact Or.inl hbc
      · by_cases hcb : c.toNat < b.toNat
        · simp [lexLe, hbc, hcb] at h2
        · exact Or.inr ⟨by omega, by simpa [lexLe, hbc, hcb] using h2⟩
    rcases h1' with hab | ⟨hab, hrec1⟩ <;> rcases h2' with hbc | ⟨hbc, hrec2⟩
    · exact (by simp [lexLe, show a.toNat < c.toNat by omega])
    · exact (by simp [lexLe, show a.toNat < c.toNat by omega])
    · exact (by simp [lexLe, show a.toNat < c.toNat by omega])
    · have : lexLe as cs = true := lexLe_trans as bs cs hrec1 hrec2
      simp [lexLe, show ¬a.toNat < c.toNat by omega, show ¬c.toNat < a.toNat by omega,
        this]

instance : IsTotal String strLe :=
  ⟨fun a b => lexLe_total a.data b.data⟩

instance : IsTrans String strLe :=
  ⟨fun a b c => lexLe_trans a.data b.data c.data⟩

/-- The resolved file list of an image root is sorted in the code-point
lexicographic order. -/
theorem resolveFiles_sorted (fs : List String) (root : String) :
    List.Sorted strLe (resolveFiles fs root) :=
  List.sorted_insertionSort strLe (globStar fs root)

/-- Length of a fixed number of full passes over a list. -/
theorem length_flatten_replicate {α : Type} (n : Nat) (l : List α) :
    (List.flatten (List.replicate n l)).length = n * l.length := by
  induction n with
  | zero => simp
  | succ k ih => simp [List.replicate_succ, ih, Nat.succ_mul]; omega


/-- C1: in train mode, a class group of size `n ≥ 1` emits `rep =
max_count / n` full passes over its shuffled records followed by the first
`rem = max_count % n` shuffled records, so it contributes exactly
`rep * n + rem = max_count` emitted entries before file expansion, where
`max_count` is the largest group size. -/
theorem train_group_entry_count (shuffle : String → List Entry → List Entry)
    (groups : Groups) (M : Nat) (label : String) (es : List Entry)
    (_hM : maxCount? groups = some M) (_hmem : (label, es) ∈ groups)
    (hne : 1 ≤ es.length) (hlen : (shuffle label es).length = es.length) :
    emittedEntries shuffle M label es
      = List.flatten (List.replicate (M / es.length) (shuffle label es))
        ++ (shuffle label es).take (M % es.length)
    ∧ (emittedEntries shuffle M label es).length
        = (M / es.length) * es.length + M % es.length
    ∧ (M / es.length) * es.length + M % es.length = M := by
  have hstruct : emittedEntries shuffle M label es
      = List.flatten (List.replicate (M / es.length) (shuffle label es))
        ++ (shuffle label es).take (M % es.length) := by
    unfold emittedEntries
    rw [hlen]
  refine ⟨hstruct, ?_, ?_⟩
  · rw [hstruct, List.length_append, length_flatten_replicate, List.length_take,
      hlen]
    have hrem : M % es.length < es.length := Nat.mod_lt _ hne
    omega
  · rw [Nat.mul_comm]
    exact Nat.div_add_mod M es.length

/-- Witness for C1 at the spec's worked example: classes `A` (2 entries)
and `B` (3 entries) give `max_count = 3`, and class `A` emits one full
pass plus its first shuffled entry, `3` emitted entries in total. -/
theorem train_group_entry_count_witness :
    emittedEntries shW 3 "A" [eA1, eA2]
      = List.flatten (List.replicate (3 / ([eA1, eA2] : List Entry).length)
          (shW "A" [eA1, eA2]))
        ++ (shW "A" [eA1, eA2]).take (3 % ([eA1, eA2] : List Entry).length)
    ∧ (emittedEntries shW 3 "A" [eA1, eA2]).length
        = (3 / ([eA1, eA2] : List Entry).length) * ([eA1, eA2] : List Entry).length
          + 3 % ([eA1, eA2] : List Entry).length
    ∧ (3 / ([eA1, eA2] : List Entry).length) * ([eA1, eA2] : List Entry).length
        + 3 % ([eA1, eA2] : List Entry).length = 3 :=
  train_group_entry_count shW gW 3 "A" [eA1, eA2] (by decide) (by decide)
    (by decide) (by decide)

/-- C2: every emitted entry expands into one training record per file
resolved (sorted) from its image root, so an entry matching `K` files
contributes `K` records per emission, and a class group's training-record
count is the sum of the per-entry file counts over its emitted entries
(not `max_count` itself). -/
theorem train_records_per_file (fs : List String)
    (shuffle : String → List Entry → List Entry) (M : Nat) (label : String)
    (es : List Entry) :
    (∀ e : Entry, emitEntry fs label e
        = (resolveFiles fs e.image_root).map (fun p =>
            { image_path := ImagePath.single p, label := label,
              one_hot := e.one_hot })
      ∧ (emitEntry fs label e).length = (resolveFiles fs e.image_root).length)
    ∧ trainGroupAnns fs shuffle M label es
        = (emittedEntries shuffle M label es).flatMap (emitEntry fs label)
    ∧ (trainGroupAnns fs shuffle M label es).length
        = ((emittedEntries shuffle M label es).map
            (fun e => (resolveFiles fs e.image_root).length)).sum := by
  refine ⟨fun e => ⟨rfl, by simp [emitEntry]⟩, rfl, ?_⟩
  simp [trainGroupAnns, List.length_flatMap, Function.comp_def, emitEntry]

/-- Appending one entry to the grouping grows its total size by one. -/
theorem sizeSum_addToGroup (groups : Groups) (label : String) (e : Entry) :
    sizeSum (addToGroup groups label e) = sizeSum groups + 1 := by
  induction groups with
  | nil => simp [addToGroup, sizeSum]
  | cons hd tl ih =>
    obtain ⟨l, es⟩ := hd
    by_cases h : l = label <;> simp [addToGroup, h, sizeSum] at ih ⊢ <;> omega

/-- Folding the rows of one spreadsheet into the grouping grows its
total size by the number of rows. -/
theorem sizeSum_foldl_addRow (split : String) (classes : List String) :
    ∀ (rows : List Row) (g : Groups),
      sizeSum (rows.foldl (addRow split classes) g) = sizeSum g + rows.length
  | [], g => by simp
  | r :: rows, g => by
    rw [List.foldl_cons, sizeSum_foldl_addRow split classes rows, addRow,
      sizeSum_addToGroup]
    simp only [List.length_cons]
    omega

/-- A successful split scan grows the grouping by the total number of
parsed rows across the splits. -/
theorem buildGroups_ok_sizeSum (fs : List String) (readCsv : String → List Row)
    (classes : List String) :
    ∀ (splits : List String) (g0 groups : Groups),
      buildGroups fs readCsv classes splits g0 = .ok groups →
      sizeSum groups = sizeSum g0 + totalRows fs readCsv splits
  | [], g0, groups => by
    intro h
    simp [buildGroups] at h
    simp [h, totalRows]
  | split :: rest, g0, groups => by
    intro h
    by_cases hods : (globOds fs split).length = 1
    · rw [buildGroups, if_pos hods] at h
      rw [buildGroups_ok_sizeSum fs readCsv classes rest _ groups h,
        sizeSum_foldl_addRow]
      simp [totalRows]
      omega
    · rw [buildGroups, if_neg hods] at h
      cases h

/-- The evaluation index holds exactly one record per grouped entry. -/
theorem evalAnns_length (fs : List String) (groups : Groups) :
    (evalAnns fs groups).length = sizeSum groups := by
  simp [evalAnns, List.length_flatMap, Function.comp_def, evalGroupAnns, sizeSum]

/-- A successful build comes from a successful split scan, returns the
index of its mode, and that index is nonempty. -/
theorem build_ok_elim (fs : List String) (readCsv : String → List Row)
    (shuffle : String → List Entry → List Entry) (splits : List String)
    (classes : List String) (train : Bool) (d : List DatasetRecord)
    (h : build fs readCsv shuffle splits classes train = .ok d) :
    ∃ groups : Groups, buildGroups fs readCsv classes splits [] = .ok groups
      ∧ d = annsOf fs shuffle train groups ∧ d ≠ [] := by
  unfold build at h
  cases hg : buildGroups fs readCsv classes splits [] with
  | error e => rw [hg] at h; cases h
  | ok groups =>
    rw [hg] at h
    dsimp at h
    by_cases he : (annsOf fs shuffle train groups).isEmpty
    · rw [if_pos he] at h; cases h
    · rw [if_neg he] at h
      cases h
      exact ⟨groups, rfl, rfl, by simpa [List.isEmpty_iff] using he⟩

/-- C3: in eval mode a successful build emits exactly one evaluation
record per parsed annotation row — the dataset length equals the total
row count across all splits — and every record holds a (sorted)
resolved-file list as one group. -/
theorem eval_length_eq_total_rows (fs : List String) (readCsv : String → List Row)
    (shuffle : String → List Entry → List Entry) (splits : List String)
    (classes : List String) (d : List DatasetRecord)
    (hb : build fs readCsv shuffle splits classes false = .ok d) :
    d.length = totalRows fs readCsv splits
    ∧ ∀ r ∈ d, ∃ ps : List String,
        r.image_path = ImagePath.multi ps ∧ List.Sorted strLe ps := by
  obtain ⟨groups, hg, hd, -⟩ := build_ok_elim fs readCsv shuffle splits classes false d hb
  have hder : d = evalAnns fs groups := by simpa [annsOf] using hd
  constructor
  · rw [hder, evalAnns_length,
      buildGroups_ok_sizeSum fs readCsv classes splits [] groups hg]
    simp [sizeSum]
  · intro r hr
    rw [hder] at hr
    simp only [evalAnns, List.mem_flatMap] at hr
    obtain ⟨g, -, hr⟩ := hr
    simp only [evalGroupAnns, List.mem_map] at hr
    obtain ⟨e, -, rfl⟩ := hr
    exact ⟨resolveFiles fs e.image_root, rfl, resolveFiles_sorted fs e.image_root⟩

/-- Witness for C3: the one-split, one-row scenario builds a one-record
eval dataset. -/
theorem eval_length_eq_total_rows_witness :
    ([recW] : List DatasetRecord).length = totalRows fsW csvW ["s"]
    ∧ ∀ r ∈ ([recW] : List DatasetRecord), ∃ ps : List String,
        r.image_path = ImagePath.multi ps ∧ List.Sorted strLe ps :=
  eval_length_eq_total_rows fsW csvW shW ["s"] ["A"] [recW] (by rfl)

/-- If some split resolves a spreadsheet count other than one, the split
scan aborts with the error naming the first such split. -/
theorem buildGroups_error_of_bad (fs : List String) (readCsv : String → List Row)
    (classes : List String) :
    ∀ (splits : List String) (g0 : Groups) (s : String),
      s ∈ splits → (globOds fs s).length ≠ 1 →
      ∃ s', s' ∈ splits ∧ (globOds fs s').length ≠ 1
        ∧ buildGroups fs readCsv classes splits g0 = .error (.annotFileError s')
  | [], _, s => by intro hs _; cases hs
  | split :: rest, g0, s => by
    intro hs hbad
    by_cases h0 : (globOds fs split).length = 1
    · have hsr : s ∈ rest := by
        cases List.mem_cons.mp hs with
        | inl h => exact absurd h0 (h ▸ hbad)
        | inr h => exact h
      obtain ⟨s', hs', hbad', herr⟩ := buildGroups_error_of_bad fs readCsv classes
        rest ((readCsv ((globOds fs split).headD "")).foldl (addRow split classes) g0)
        s hsr hbad
      exact ⟨s', List.mem_cons_of_mem _ hs', hbad', by
        rw [buildGroups, if_pos h0]; exact herr⟩
    · exact ⟨split, List.mem_cons_self _ _, h0, by rw [buildGroups, if_neg h0]⟩

/-- C4: if any split resolves zero or several annotation spreadsheets,
construction aborts with the spreadsheet-count error (naming an offending
split) and returns no dataset at all. -/
theorem missing_or_multiple_ods_aborts (fs : List String) (readCsv : String → List Row)
    (shuffle : String → List Entry → List Entry) (splits : List String)
    (classes : List String) (train : Bool) (s : String)
    (hs : s ∈ splits) (hbad : (globOds fs s).length ≠ 1) :
    ∃ s', s' ∈ splits ∧ (globOds fs s').length ≠ 1
      ∧ build fs readCsv shuffle splits classes train = .error (.annotFileError s') := by
  obtain ⟨s', hs', hbad', herr⟩ :=
    buildGroups_error_of_bad fs readCsv classes splits [] s hs hbad
  exact ⟨s', hs', hbad', by unfold build; rw [herr]⟩

/-- Witness for C4: an empty filesystem has no spreadsheet in split
`s0`, so construction aborts. -/
theorem missing_or_multiple_ods_aborts_witness :
    (globOds ([] : List String) "s0").length ≠ 1
    ∧ ∃ s', s' ∈ ["s0"] ∧ (globOds ([] : List String) s').length ≠ 1
        ∧ build [] csvW shW ["s0"] ["A"] true = .error (.annotFileError s') :=
  ⟨by decide, missing_or_multiple_ods_aborts [] csvW shW ["s0"] ["A"] true "s0" (by decide) (by decide)⟩

/-- C5: a successful build always returns a nonempty index, and when the
scan succeeds but produces no records the build fails with the
empty-split error instead of returning an empty dataset. -/
theorem build_never_returns_empty (fs : List String) (readCsv : String → List Row)
    (shuffle : String → List Entry → List Entry) (splits : List String)
    (classes : List String) (train : Bool) :
    (∀ d : List DatasetRecord,
      build fs readCsv shuffle splits classes train = .ok d → 0 < d.length)
    ∧ (∀ groups : Groups,
      buildGroups fs readCsv classes splits [] = .ok groups →
      annsOf fs shuffle train groups = [] →
      build fs readCsv shuffle splits classes train = .error .emptySplitError) := by
  constructor
  · intro d hb
    obtain ⟨-, -, -, hne⟩ := build_ok_elim fs readCsv shuffle splits classes train d hb
    exact List.length_pos.mpr hne
  · intro groups hg he
    unfold build
    rw [hg]
    simp [he]

/-- Witness for C5: the well-formed scenario builds a nonempty dataset,
and the row-less scenario fails with the empty-split error. -/
theorem build_never_returns_empty_witness :
    0 < ([recW] : List DatasetRecord).length
    ∧ build ["s/a.ods"] csvE shW ["s"] ["A"] false = .error .emptySplitError :=
  ⟨(build_never_returns_empty fsW csvW shW ["s"] ["A"] false).1 [recW] (by rfl),
   (build_never_returns_empty ["s/a.ods"] csvE shW ["s"] ["A"] false).2 [] (by rfl) (by rfl)⟩

/-- A pairwise property of the grouping is preserved when an entry
satisfying it is appended. -/
theorem groupsInv_addToGroup (P : String → Entry → Prop) :
    ∀ (groups : Groups) (label : String) (e : Entry),
      GroupsInv P groups → P label e → GroupsInv P (addToGroup groups label e)
  | [], label, e => by
    intro _ he l es hmem e' he'
    simp [addToGroup] at hmem
    obtain ⟨rfl, rfl⟩ := hmem
    simp at he'
    exact he' ▸ he
  | (l0, es0) :: tl, label, e => by
    intro h he l es hmem e' he'
    by_cases hl : l0 = label
    · rw [addToGroup, if_pos hl] at hmem
      cases List.mem_cons.mp hmem with
      | inl hh =>
        rw [Prod.mk.injEq] at hh
        obtain ⟨h5, h6⟩ := hh
        subst h5
        subst h6
        rcases List.mem_append.mp he' with h1 | h1
        · exact h _ es0 (List.mem_cons_self _ _) e' h1
        · simp at h1
          subst h1
          rw [hl]
          exact he
      | inr hh => exact h l es (List.mem_cons_of_mem _ hh) e' he'
    · rw [addToGroup, if_neg hl] at hmem
      cases List.mem_cons.mp hmem with
      | inl hh =>
        obtain ⟨rfl, rfl⟩ := Prod.mk.injEq .. ▸ hh
        exact h l es (List.mem_cons_self _ _) e' he'
      | inr hh =>
        exact groupsInv_addToGroup P tl label e
          (fun l' es' hm' => h l' es' (List.mem_cons_of_mem _ hm')) he l es hh e' he'

/-- A pairwise property of the grouping is preserved by folding rows
whose derived entries satisfy it. -/
theorem groupsInv_foldl_addRow (P : String → Entry → Prop) (split : String)
    (classes : List String) :
    ∀ (rows : List Row) (g : Groups),
      GroupsInv P g → (∀ r ∈ rows, P r.ann_label (rowEntry split classes r)) →
      GroupsInv P (rows.foldl (addRow split classes) g)
  | [], g => fun hg _ => hg
  | r :: rows, g => by
    intro hg hrows
    rw [List.foldl_cons]
    exact groupsInv_foldl_addRow P split classes rows _
      (groupsInv_addToGroup P g r.ann_label _ hg (hrows r (List.mem_cons_self _ _)))
      (fun r' hr' => hrows r' (List.mem_cons_of_mem _ hr'))

/-- A pairwise property holding of every row-derived entry holds of the
whole grouping a successful split scan produces. -/
theorem groupsInv_buildGroups (P : String → Entry → Prop) (fs : List String)
    (readCsv : String → List Row) (classes : List String)
    (hcsv : ∀ (s f : String), ∀ r ∈ readCsv f, P r.ann_label (rowEntry s classes r)) :
    ∀ (splits : List String) (g0 groups : Groups),
      buildGroups fs readCsv classes splits g0 = .ok groups →
      GroupsInv P g0 → GroupsInv P groups
  | [], g0, groups => by
    intro h hg
    simp [buildGroups] at h
    exact h ▸ hg
  | split :: rest, g0, groups => by
    intro h hg
    by_cases h0 : (globOds fs split).length = 1
    · rw [buildGroups, if_pos h0] at h
      exact groupsInv_buildGroups P fs readCsv classes hcsv rest _ groups h
        (groupsInv_foldl_addRow P split classes _ g0 hg
          (fun r hr => hcsv split _ r hr))
    · rw [buildGroups, if_neg h0] at h
      cases h

/-- Provenance: every record of the built index (either mode) carries
the label and one-hot of some grouped entry, provided the shuffle only
permutes entries. -/
theorem mem_annsOf (fs : List String) (shuffle : String → List Entry → List Entry)
    (train : Bool) (groups : Groups) (r : DatasetRecord)
    (hsh : ∀ (l : String) (es : List Entry), ∀ e ∈ shuffle l es, e ∈ es)
    (hr : r ∈ annsOf fs shuffle train groups) :
    ∃ l es e, (l, es) ∈ groups ∧ e ∈ es ∧ r.label = l ∧ r.one_hot = e.one_hot := by
  cases train with
  | false =>
    simp only [annsOf, if_neg Bool.false_ne_true, evalAnns, List.mem_flatMap] at hr
    obtain ⟨g, hgmem, hr⟩ := hr
    simp only [evalGroupAnns, List.mem_map] at hr
    obtain ⟨e, he, rfl⟩ := hr
    exact ⟨g.1, g.2, e, hgmem, he, rfl, rfl⟩
  | true =>
    simp only [annsOf, if_pos rfl] at hr
    cases hM : maxCount? groups with
    | none => rw [hM] at hr; cases hr
    | some M =>
      rw [hM] at hr
      have hr' : r ∈ trainAnns fs shuffle M groups := hr
      rw [trainAnns, List.mem_flatMap] at hr'
      obtain ⟨g, hgmem, hr'⟩ := hr'
      rw [trainGroupAnns, List.mem_flatMap] at hr'
      obtain ⟨e, he, hr'⟩ := hr'
      rw [emitEntry, List.mem_map] at hr'
      obtain ⟨p, hp, rfl⟩ := hr'
      have he2 : e ∈ shuffle g.1 g.2 := by
        rcases List.mem_append.mp he with h1 | h1
        · obtain ⟨l', hl', hmem'⟩ := List.mem_flatten.mp h1
          obtain ⟨-, rfl⟩ := List.mem_replicate.mp hl'
          exact hmem'
        · exact List.take_subset _ _ h1
      exact ⟨g.1, g.2, e, hgmem, hsh g.1 g.2 e he2, rfl, rfl⟩

/-- Counterexample to C6 as stated: construction copies the label and
one-hot columns verbatim without consistency checking, so a malformed row
(label `A`, one-hot set in column `B`) yields a constructed record whose
argmax decode is `B`, not its label `A`. -/
theorem one_hot_round_trip_cex :
    build fsC csvC shW ["t"] ["A", "B"] false = .ok [recC]
    ∧ recC.label = "A"
    ∧ decodeLabel ["A", "B"] recC.one_hot = some "B"
    ∧ decodeLabel ["A", "B"] recC.one_hot ≠ some recC.label := by
  refine ⟨by rfl, rfl, by decide, by decide⟩

/-- C6 (amended): provided every parsed row is well-formed — its one-hot
columns argmax-decode to its label — and the shuffle only permutes
entries, every constructed record's one-hot argmax-decodes to exactly its
label, in both modes. -/
theorem one_hot_round_trip_amended (fs : List String) (readCsv : String → List Row)
    (shuffle : String → List Entry → List Entry) (splits : List String)
    (classes : List String) (train : Bool) (d : List DatasetRecord)
    (hcsv : ∀ f : String, ∀ r ∈ readCsv f,
      decodeLabel classes (classes.map r.cols) = some r.ann_label)
    (hsh : ∀ (l : String) (es : List Entry), ∀ e ∈ shuffle l es, e ∈ es)
    (hb : build fs readCsv shuffle splits classes train = .ok d) :
    ∀ r ∈ d, decodeLabel classes r.one_hot = some r.label := by
  intro r hr
  obtain ⟨groups, hg, hd, -⟩ := build_ok_elim fs readCsv shuffle splits classes train d hb
  have hinv : GroupsInv (fun l e => decodeLabel classes e.one_hot = some l) groups :=
    groupsInv_buildGroups _ fs readCsv classes
      (fun s f r' hr' => by simpa [rowEntry] using hcsv f r' hr')
      splits [] groups hg (fun l es hmem => by cases hmem)
  obtain ⟨l, es, e, hgm, hem, hlab, hoh⟩ :=
    mem_annsOf fs shuffle train groups r hsh (hd ▸ hr)
  rw [hlab, hoh]
  exact hinv l es hgm e hem

/-- Witness for C6 (amended) at the well-formed scenario. -/
theorem one_hot_round_trip_amended_witness : decodeLabel ["A"] recW.one_hot = some recW.label :=
  one_hot_round_trip_amended fsW csvW shW ["s"] ["A"] false [recW]
    (fun f r hr => by rw [List.mem_singleton.mp hr]; decide)
    (fun l es e h => h) (by rfl) recW (by decide)

/-- Python `list.index` fails exactly when the label is absent. -/
theorem listIdx_eq_none (classes : List String) (lab : String)
    (h : lab ∉ classes) : listIdx classes lab = none := by
  induction classes with
  | nil => rfl
  | cons c cs ih =>
    have hne : ¬(c = lab) := fun hc => h (by rw [← hc]; exact List.mem_cons_self _ _)
    rw [listIdx, if_neg hne, ih (fun hc => h (List.mem_cons_of_mem _ hc))]
    rfl

/-- List indexing fails at or beyond the length. -/
theorem pyIndex_none_of_ge {α : Type} (l : List α) (i : Int)
    (h : (l.length : Int) ≤ i) : pyIndex l i = none := by
  unfold pyIndex
  rw [if_pos (by omega)]
  exact List.get?_eq_none.mpr (by omega)

/-- Non-negative indices read from the front. -/
theorem pyIndex_nonneg {α : Type} (l : List α) (i : Int) (h0 : 0 ≤ i) :
    pyIndex l i = l.get? i.toNat := by
  unfold pyIndex
  rw [if_pos h0]

/-- In-range negative indices read from the back. -/
theorem pyIndex_neg {α : Type} (l : List α) (k : Nat) (h1 : 1 ≤ k)
    (h2 : k ≤ l.length) : pyIndex l (-(k : Int)) = l.get? (l.length - k) := by
  unfold pyIndex
  rw [if_neg (by omega), if_pos (by omega)]
  congr 1
  omega

/-- Retrieval surfaces an index failure as `IndexError` in both
modes. -/
theorem getItem_of_pyIndex_none (d : UWDataset) (i : Int)
    (h : pyIndex d.anns i = none) : getItem d i = .error .indexError := by
  by_cases htr : d.train <;> simp [getItem, htr, h]

/-- Whenever indexing succeeds, retrieval never reports `IndexError`,
whatever else it does. -/
theorem getItem_ne_indexError_of_pyIndex_some (d : UWDataset) (i : Int)
    (a : DatasetRecord) (h : pyIndex d.anns i = some a) :
    getItem d i ≠ .error .indexError := by
  by_cases htr : d.train <;>
    simp only [getItem, htr, if_pos, if_neg, Bool.false_eq_true, if_false, if_true, h] <;>
    cases a.image_path <;>
    try cases listIdx d.list_classes a.label <;> simp

/-- C7: retrieval fails with the label-not-found error whenever the
record at the requested index has a label absent from the configured
class order, in train mode and in eval mode alike. -/
theorem get_label_not_found (d : UWDataset) (i : Int) (a : DatasetRecord)
    (hidx : pyIndex d.anns i = some a)
    (htr : d.train = true → ∃ p, a.image_path = ImagePath.single p)
    (hev : d.train = false → ∃ ps, a.image_path = ImagePath.multi ps)
    (hlab : a.label ∉ d.list_classes) :
    getItem d i = .error .labelNotFoundError := by
  have hnone := listIdx_eq_none d.list_classes a.label hlab
  cases htrain : d.train with
  | true =>
    obtain ⟨p, hp⟩ := htr htrain
    simp [getItem, htrain, hidx, hp, hnone]
  | false =>
    obtain ⟨ps, hps⟩ := hev htrain
    simp [getItem, htrain, hidx, hps, hnone]

/-- Witness for C7: a record labelled `Z` under class order `[A]`. -/
theorem get_label_not_found_witness : getItem dC7 0 = .error .labelNotFoundError :=
  get_label_not_found dC7 0 { image_path := ImagePath.single "p", label := "Z", one_hot := [1] }
    (by rfl) (fun _ => ⟨"p", rfl⟩) (fun h => absurd h (by decide))
    (by decide)

/-- C8: retrieval at any index at or beyond `len(dataset)` fails with
`IndexError`, while indices in `[0, len)` are never rejected with
`IndexError`. -/
theorem get_index_bounds (d : UWDataset) (i : Int) :
    ((d.len : Int) ≤ i → getItem d i = .error .indexError)
    ∧ (0 ≤ i → i < (d.len : Int) → getItem d i ≠ .error .indexError) := by
  constructor
  · intro h
    exact getItem_of_pyIndex_none d i (pyIndex_none_of_ge d.anns i h)
  · intro h0 h1
    have hlt : i.toNat < d.anns.length := by
      unfold UWDataset.len at h1
      omega
    obtain ⟨a, ha⟩ : ∃ a, pyIndex d.anns i = some a := by
      rw [pyIndex_nonneg d.anns i h0]
      exact ⟨_, List.get?_eq_get hlt⟩
    exact getItem_ne_indexError_of_pyIndex_some d i a ha

/-- Witness for C8 on a one-record dataset: index 1 is rejected, index 0
is not. -/
theorem get_index_bounds_witness :
    getItem dW8 1 = .error .indexError
    ∧ getItem dW8 0 ≠ .error .indexError :=
  ⟨(get_index_bounds dW8 1).1 (by decide), (get_index_bounds dW8 0).2 (by decide) (by decide)⟩

/-- C10: retrieval accepts negative indices with native Python slicing
semantics: for `1 ≤ k ≤ n`, `get(-k)` returns exactly what `get(n-k)`
returns and is not rejected with `IndexError`. -/
theorem get_negative_index (d : UWDataset) (k : Nat) (h1 : 1 ≤ k) (h2 : k ≤ d.len) :
    getItem d (-(k : Int)) = getItem d ((d.len : Int) - (k : Int))
    ∧ getItem d (-(k : Int)) ≠ .error .indexError := by
  have hneg : pyIndex d.anns (-(k : Int)) = d.anns.get? (d.anns.length - k) :=
    pyIndex_neg d.anns k h1 h2
  have hpos : pyIndex d.anns ((d.len : Int) - (k : Int))
      = d.anns.get? (d.anns.length - k) := by
    rw [pyIndex_nonneg d.anns _ (by unfold UWDataset.len at h2 ⊢; omega)]
    congr 1
    unfold UWDataset.len
    omega
  have hcongr : getItem d (-(k : Int)) = getItem d ((d.len : Int) - (k : Int)) := by
    by_cases htr : d.train <;> simp [getItem, htr, hneg, hpos]
  refine ⟨hcongr, ?_⟩
  have hlt : d.anns.length - k < d.anns.length := by
    unfold UWDataset.len at h2
    omega
  obtain ⟨a, ha⟩ : ∃ a, pyIndex d.anns (-(k : Int)) = some a := by
    rw [hneg]
    exact ⟨_, List.get?_eq_get hlt⟩
  exact getItem_ne_indexError_of_pyIndex_some d _ a ha

/-- Witness for C10 on a one-record dataset: `get(-1)` equals
`get(0)`. -/
theorem get_negative_index_witness :
    getItem dW8 (-(1 : Nat) : Int) = getItem dW8 ((dW8.len : Int) - ((1 : Nat) : Int))
    ∧ getItem dW8 (-(1 : Nat) : Int) ≠ .error .indexError :=
  get_negative_index dW8 1 (by decide) (by decide)

/-- C9: neither `__len__` nor `__getitem__` mutates the dataset object:
every observation leaves the state unchanged, so after any sequence of
such calls the record sequence is identical. -/
theorem len_get_no_mutation (d : UWDataset) (ops : List Op) :
    (∀ op : Op, (runOp d op).1 = d)
    ∧ runOps d ops = d
    ∧ (runOps d ops).anns = d.anns := by
  have hstep : ∀ op : Op, (runOp d op).1 = d := by
    intro op
    cases op <;> rfl
  have hrun : runOps d ops = d := by
    induction ops with
    | nil => rfl
    | cons op ops ih => rw [runOps, hstep op]; exact ih
  exact ⟨hstep, hrun, by rw [hrun]⟩
